import Mathlib

/-!
Verification of the RegulateAI repository's specification.

The repository's RAG (retrieval-augmented generation) core — Chunker, Embedder,
Vector Index, Ingestion Pipeline, Retriever, Answer Composer — is declared at
the API-contract level only (`documentsAPI.processBatch`, `assistantAPI.query`
in `src/App.tsx`); the implementation is not part of the repository, so those
components are modelled from the specification text (§3–§8 of spec.md).

The SQL functions `update_entity_risk_score` and `analyze_alert_priority`
(supabase migrations) are embedded from their source, including the failures
their bodies exhibit under default PostgreSQL settings: the former's ambiguous
unqualified `entity_id` reference (SQLSTATE 42702 on every call) and the
latter's malformed `CASE` statements (the body never parses); the computations
their bodies were written to perform are embedded alongside as
`new_risk_score` and `analyze_alert_priority_intended`.
-/

namespace RegulateAI

/-! ## Error taxonomy and document status (spec §4.4, §7) -/

/-- Modelled from the spec: error taxonomy of §7 (the implementation is absent
from the repository). -/
inductive RagError
  | InvalidConfig
  | ExtractionFailed
  | EmbeddingUnavailable
  | GenerationUnavailable
  | GenerationTimeout
  | IndexInconsistency
deriving DecidableEq, Repr

/-- Modelled from the spec: per-document processing status §3/§4.4 (the
implementation is absent from the repository). -/
inductive DocStatus
  | Uploaded
  | Extracting
  | Chunking
  | Embedding
  | Indexed
  | Failed (reason : RagError)
deriving DecidableEq, Repr

/-! ## Chunker (spec §4.1) -/

structure ChunkConfig where
  chunk_size : Nat
  chunk_overlap : Nat
deriving DecidableEq, Repr

/-- Modelled from the spec: a Chunk §3 — sequence index, offsets and text (the
implementation is absent from the repository). -/
structure Chunk where
  seq : Nat
  startOff : Nat
  endOff : Nat
  text : List Char
deriving DecidableEq, Repr

/-- Sliding character windows: a window of `size` characters starting at
`start`, advancing by `stride = size - overlap`; the final window is emitted
when it reaches the end of the text.  Fuel bounds the recursion. -/
def chunksAux (text : List Char) (size stride : Nat) :
    Nat → Nat → Nat → List Chunk
  | 0, _, _ => []
  | fuel + 1, start, seq =>
    if start + size < text.length then
      ⟨seq, start, start + size, (text.drop start).take size⟩ ::
        chunksAux text size stride fuel (start + stride) (seq + 1)
    else
      [⟨seq, start, text.length, (text.drop start).take size⟩]

/-- Modelled from the spec: Chunker §4.1 — `chunk(text, config)` splits the
text into overlapping character windows of `chunk_size` characters advancing
by `chunk_size - chunk_overlap`; fails with `InvalidConfig` when
`chunk_size = 0` or `chunk_overlap ≥ chunk_size`; empty input yields the empty
sequence (the implementation is absent from the repository). -/
def chunk (text : List Char) (cfg : ChunkConfig) : Except RagError (List Chunk) :=
  if cfg.chunk_size = 0 ∨ cfg.chunk_size ≤ cfg.chunk_overlap then
    .error .InvalidConfig
  else if text.length = 0 then
    .ok []
  else
    .ok (chunksAux text cfg.chunk_size (cfg.chunk_size - cfg.chunk_overlap)
          (text.length + 1) 0 0)

theorem chunksAux_ne_nil (text : List Char) (size stride fuel start seq : Nat) :
    chunksAux text size stride (fuel + 1) start seq ≠ [] := by
  unfold chunksAux
  split <;> simp

/-- The `j`-th produced chunk has text `(text.drop (start + j*stride)).take size`. -/
theorem chunksAux_get?_text (text : List Char) (size stride : Nat) :
    ∀ fuel start seq j c, (chunksAux text size stride fuel start seq).get? j = some c →
      c.text = (text.drop (start + j * stride)).take size := by
  intro fuel
  induction fuel with
  | zero => intro start seq j c h; simp [chunksAux] at h
  | succ fuel ih =>
    intro start seq j c h
    unfold chunksAux at h
    by_cases hlt : start + size < text.length
    · rw [if_pos hlt] at h
      cases j with
      | zero => simp at h; rw [← h]; simp
      | succ j =>
        simp only [List.get?_cons_succ] at h
        have := ih (start + stride) (seq + 1) j c h
        rw [this]
        congr 1
        ring_nf
    · rw [if_neg hlt] at h
      cases j with
      | zero => simp at h; rw [← h]; simp
      | succ j => simp at h

/-- If a `(j+1)`-th chunk exists then the `j`-th window did not reach the end
of the text. -/
theorem chunksAux_continue (text : List Char) (size stride : Nat) :
    ∀ fuel start seq j, j + 1 < (chunksAux text size stride fuel start seq).length →
      start + j * stride + size < text.length := by
  intro fuel
  induction fuel with
  | zero => intro start seq j h; simp [chunksAux] at h
  | succ fuel ih =>
    intro start seq j h
    unfold chunksAux at h
    by_cases hlt : start + size < text.length
    · rw [if_pos hlt] at h
      cases j with
      | zero => simpa using hlt
      | succ j =>
        simp only [List.length_cons] at h
        have := ih (start + stride) (seq + 1) j (by omega)
        have heq : start + (j + 1) * stride = start + stride + j * stride := by ring
        omega
    · rw [if_neg hlt] at h
      simp at h

/-- C5: For every input text and every configuration with
`0 < chunk_overlap < chunk_size`, in the sequence produced by `chunk` every
pair of consecutive chunks shares a character-identical overlap region: the
trailing span of the earlier chunk equals the leading span of the later
chunk. -/
theorem chunk_consecutive_overlap (text : List Char) (cfg : ChunkConfig)
    (h1 : 0 < cfg.chunk_overlap) (h2 : cfg.chunk_overlap < cfg.chunk_size)
    (cs : List Chunk) (hcs : chunk text cfg = .ok cs)
    (i : Nat) (a b : Chunk)
    (ha : cs.get? i = some a) (hb : cs.get? (i + 1) = some b) :
    a.text.drop (cfg.chunk_size - cfg.chunk_overlap) =
      b.text.take cfg.chunk_overlap := by
  unfold chunk at hcs
  rw [if_neg (by omega)] at hcs
  by_cases hemp : text.length = 0
  · rw [if_pos hemp] at hcs
    have : cs = [] := by
      cases hcs
      rfl
    subst this
    simp at ha
  · rw [if_neg hemp] at hcs
    set stride := cfg.chunk_size - cfg.chunk_overlap with hstride
    have hcs' : cs = chunksAux text cfg.chunk_size stride (text.length + 1) 0 0 := by
      cases hcs
      rfl
    subst hcs'
    have hat := chunksAux_get?_text text cfg.chunk_size stride (text.length + 1) 0 0 i a ha
    have hbt := chunksAux_get?_text text cfg.chunk_size stride (text.length + 1) 0 0 (i + 1) b hb
    rw [hat, hbt]
    rw [List.drop_take, List.take_take]
    have hso : stride ≤ cfg.chunk_size := by omega
    have hov : cfg.chunk_size - stride = cfg.chunk_overlap := by omega
    have hmin : min cfg.chunk_overlap cfg.chunk_size = cfg.chunk_overlap := by omega
    rw [List.drop_drop, hov, hmin]
    congr 2
    ring

/-- Witness for C5 at a concrete input: a 10-character text chunked with
`chunk_size = 4`, `chunk_overlap = 2`. -/
theorem chunk_consecutive_overlap_witness :
    (⟨0, 0, 4, ['a', 'b', 'c', 'd']⟩ : Chunk).text.drop 2 =
      (⟨1, 2, 6, ['c', 'd', 'e', 'f']⟩ : Chunk).text.take 2 :=
  chunk_consecutive_overlap "abcdefghij".data ⟨4, 2⟩ (by decide) (by decide)
    [⟨0, 0, 4, ['a', 'b', 'c', 'd']⟩, ⟨1, 2, 6, ['c', 'd', 'e', 'f']⟩,
     ⟨2, 4, 8, ['e', 'f', 'g', 'h']⟩, ⟨3, 6, 10, ['g', 'h', 'i', 'j']⟩]
    rfl 0 _ _ rfl rfl

set_option maxRecDepth 100000 in
/-- C8 counterexample: with `chunk_size = 500` and `chunk_overlap = 100`, a
1200-character document does not produce chunks of lengths `[500, 500, 200]`
(the window stride is `500 - 100 = 400`, so the windows are `[0,500)`,
`[400,900)`, `[800,1200)` with lengths `[500, 500, 400]`). -/
theorem chunk_1200_not_lengths_500_500_200 :
    (chunk (List.replicate 1200 'X') ⟨500, 100⟩).map
        (fun cs => cs.map (fun c => c.text.length)) ≠
      Except.ok [500, 500, 200] := by
  have h : (chunk (List.replicate 1200 'X') ⟨500, 100⟩).map
      (fun cs => cs.map (fun c => c.text.length)) = Except.ok [500, 500, 400] := by
    rfl
  rw [h]
  simp

set_option maxRecDepth 100000 in
/-- C8 (amended): with `chunk_size = 500` and `chunk_overlap = 100`, applying
`chunk` to a 1200-character document produces exactly 3 chunks whose lengths
are `[500, 500, 400]`, covering the spans `[0,500)`, `[400,900)`, `[800,1200)`
with 100-character overlap regions between consecutive chunks. -/
theorem chunk_1200_chars :
    chunk (List.replicate 1200 'X') ⟨500, 100⟩ =
      .ok [⟨0, 0, 500, List.replicate 500 'X'⟩,
           ⟨1, 400, 900, List.replicate 500 'X'⟩,
           ⟨2, 800, 1200, List.replicate 400 'X'⟩] ∧
    (chunk (List.replicate 1200 'X') ⟨500, 100⟩).map
        (fun cs => cs.map (fun c => c.text.length)) =
      Except.ok [500, 500, 400] :=
  ⟨rfl, rfl⟩

/-! ## Embedder (spec §4.2) -/

/-- A fixed-dimension embedding vector. -/
abbrev Vec := List ℚ

/-- Split a list into consecutive batches of at most `n` elements; fuel bounds
the recursion. -/
def toBatchesAux {α : Type} (n : Nat) : Nat → List α → List (List α)
  | 0, _ => []
  | _, [] => []
  | fuel + 1, l => l.take n :: toBatchesAux n fuel (l.drop n)

/-- Split a list into consecutive batches of at most `n` elements. -/
def toBatches {α : Type} (n : Nat) (l : List α) : List (List α) :=
  toBatchesAux n l.length l

/-- Modelled from the spec: Embedder §4.2 — `embed(texts)` batches the inputs
internally up to the configured max batch size, applies the embedding model
(a pure collaborator function) to each batch, and concatenates the results in
order (the implementation is absent from the repository). -/
def embed (model : List Char → Vec) (maxBatch : Nat) (texts : List (List Char)) :
    List Vec :=
  ((toBatches maxBatch texts).map (fun batch => batch.map model)).flatten

theorem toBatchesAux_join {α : Type} (n : Nat) (hn : 0 < n) :
    ∀ fuel (l : List α), l.length ≤ fuel → (toBatchesAux n fuel l).flatten = l := by
  intro fuel
  induction fuel with
  | zero =>
    intro l hl
    have : l = [] := List.length_eq_zero.mp (by omega)
    subst this
    rfl
  | succ fuel ih =>
    intro l hl
    cases l with
    | nil => rfl
    | cons a as =>
      show ((a :: as).take n :: toBatchesAux n fuel ((a :: as).drop n)).flatten = a :: as
      rw [List.flatten_cons, ih ((a :: as).drop n)
        (by simp only [List.length_drop, List.length_cons] at hl ⊢; omega)]
      exact List.take_append_drop n (a :: as)

/-- C6: `embed` returns exactly one vector per input text, in input order: it
agrees with mapping the model over the inputs, so the output count and order
are independent of the configured max batch size. -/
theorem embed_one_vector_per_text (model : List Char → Vec) (maxBatch : Nat)
    (texts : List (List Char)) (h1 : 0 < maxBatch) (h2 : texts ≠ []) :
    embed model maxBatch texts = texts.map model ∧
    (embed model maxBatch texts).length = texts.length := by
  have hjoin : embed model maxBatch texts = texts.map model := by
    unfold embed toBatches
    rw [← List.map_flatten, toBatchesAux_join maxBatch h1 texts.length texts le_rfl]
  exact ⟨hjoin, by rw [hjoin, List.length_map]⟩

/-- Witness for C6: three texts embedded with max batch size 2 (two internal
batches) yield one vector per text, in order. -/
theorem embed_one_vector_per_text_witness :
    embed (fun t => [(t.length : ℚ)]) 2 ["a".data, "bb".data, "ccc".data] =
        ["a".data, "bb".data, "ccc".data].map (fun t => [(t.length : ℚ)]) ∧
      (embed (fun t => [(t.length : ℚ)]) 2 ["a".data, "bb".data, "ccc".data]).length =
        (["a".data, "bb".data, "ccc".data] : List (List Char)).length :=
  embed_one_vector_per_text (fun t => [(t.length : ℚ)]) 2
    ["a".data, "bb".data, "ccc".data] (by decide) (by decide)

/-! ## Vector Index (spec §4.3) -/

/-- Modelled from the spec: metadata snapshot of a Vector Index Entry §3 (the
implementation is absent from the repository). -/
structure EntryMeta where
  document_id : Nat
  regulation_id : Option Nat
  jurisdiction_id : Option Nat
deriving DecidableEq, Repr

/-- Modelled from the spec: a Vector Index Entry §3 — chunk id, chunk sequence
index (tie-break key for `search`), embedding vector and metadata snapshot
(the implementation is absent from the repository). -/
structure IndexEntry where
  chunk_id : Nat
  seq : Nat
  vec : Vec
  meta : EntryMeta
deriving DecidableEq, Repr

/-- Modelled from the spec: query filter — optional equality constraints on
regulation_id / jurisdiction_id §4.3. -/
structure QueryFilter where
  regulation_id : Option Nat
  jurisdiction_id : Option Nat
deriving DecidableEq, Repr

/-- A metadata snapshot satisfies a filter when each present constraint holds
by equality. -/
def matchesFilter (f : QueryFilter) (m : EntryMeta) : Bool :=
  (match f.regulation_id with
   | none => true
   | some r => m.regulation_id == some r) &&
  (match f.jurisdiction_id with
   | none => true
   | some j => m.jurisdiction_id == some j)

/-- The fixed similarity metric: inner product of the two vectors. -/
def dot (v w : Vec) : ℚ := (List.zipWith (fun a b => a * b) v w).sum

/-- Ranking relation for `search` results: descending similarity to the query
vector, ties broken by chunk sequence index ascending. -/
def searchRank (q : Vec) (e f : IndexEntry) : Prop :=
  dot q f.vec < dot q e.vec ∨ (dot q e.vec = dot q f.vec ∧ e.seq ≤ f.seq)

instance (q : Vec) : DecidableRel (searchRank q) := fun e f => by
  unfold searchRank
  exact inferInstance

instance (q : Vec) : IsTotal IndexEntry (searchRank q) where
  total e f := by
    unfold searchRank
    rcases lt_trichotomy (dot q e.vec) (dot q f.vec) with h | h | h
    · exact Or.inr (Or.inl h)
    · rcases Nat.le_total e.seq f.seq with hs | hs
      · exact Or.inl (Or.inr ⟨h, hs⟩)
      · exact Or.inr (Or.inr ⟨h.symm, hs⟩)
    · exact Or.inl (Or.inl h)

instance (q : Vec) : IsTrans IndexEntry (searchRank q) where
  trans e f g hef hfg := by
    unfold searchRank at *
    rcases hef with h1 | ⟨h1, h1s⟩ <;> rcases hfg with h2 | ⟨h2, h2s⟩
    · exact Or.inl (h2.trans h1)
    · exact Or.inl (h2 ▸ h1)
    · exact Or.inl (by rw [h1]; exact h2)
    · exact Or.inr ⟨h1.trans h2, h1s.trans h2s⟩

/-- Modelled from the spec: the Vector Index together with the document-status
table §4.3/§6 — the two shared structures of the core (the implementation is
absent from the repository). -/
structure RagState where
  index : List IndexEntry
  status : Nat → Option DocStatus

/-- Modelled from the spec: `delete_by_document(document_id)` §4.3 — removes
all index entries for a document. -/
def deleteByDocument (d : Nat) (idx : List IndexEntry) : List IndexEntry :=
  idx.filter (fun e => e.meta.document_id != d)

/-- Modelled from the spec: `upsert(entries)` §4.3 — inserts the entries,
replacing any existing entry with the same chunk_id. -/
def upsert (entries : List IndexEntry) (idx : List IndexEntry) : List IndexEntry :=
  entries ++ idx.filter (fun e => !(entries.any (fun n => n.chunk_id == e.chunk_id)))

/-- Modelled from the spec: `search(query_vector, k, filter)` §4.3 — at most
`k` entries whose metadata satisfies the filter, ordered by descending inner
product with ties broken by chunk sequence index ascending (the implementation
is absent from the repository). -/
def search (q : Vec) (k : Nat) (f : QueryFilter) (st : RagState) : List IndexEntry :=
  (List.insertionSort (searchRank q)
    (st.index.filter (fun e => matchesFilter f e.meta))).take k

theorem mem_search (q : Vec) (k : Nat) (f : QueryFilter) (st : RagState)
    (e : IndexEntry) (h : e ∈ search q k f st) :
    e ∈ st.index ∧ matchesFilter f e.meta = true := by
  unfold search at h
  have h1 := List.mem_of_mem_take h
  have h2 := (List.perm_insertionSort (searchRank q)
    (st.index.filter (fun e => matchesFilter f e.meta))).mem_iff.mp h1
  exact List.mem_filter.mp h2

/-- C4: `search` returns at most `k` entries, every returned entry's metadata
satisfies the filter, and the result is ordered by descending inner-product
similarity with ties broken by chunk sequence index ascending — a
deterministic ordering. -/
theorem search_spec (q : Vec) (k : Nat) (f : QueryFilter) (st : RagState) :
    (search q k f st).length ≤ k ∧
    (∀ e ∈ search q k f st, matchesFilter f e.meta = true) ∧
    List.Sorted (searchRank q) (search q k f st) := by
  refine ⟨?_, ?_, ?_⟩
  · exact (List.length_take k _).le.trans (Nat.min_le_left _ _)
  · exact fun e he => (mem_search q k f st e he).2
  · exact List.Pairwise.take (List.sorted_insertionSort (searchRank q) _)

/-- Witness for C4 at a concrete index of two entries and a filter selecting
regulation 7. -/
theorem search_spec_witness :
    (search [2, 1] 1 ⟨some 7, none⟩
        ⟨[⟨1, 0, [1, 0], ⟨10, some 7, none⟩⟩, ⟨2, 1, [0, 1], ⟨11, none, none⟩⟩],
         fun _ => some DocStatus.Indexed⟩).length ≤ 1 ∧
    (∀ e ∈ search [2, 1] 1 ⟨some 7, none⟩
        ⟨[⟨1, 0, [1, 0], ⟨10, some 7, none⟩⟩, ⟨2, 1, [0, 1], ⟨11, none, none⟩⟩],
         fun _ => some DocStatus.Indexed⟩,
      matchesFilter ⟨some 7, none⟩ e.meta = true) ∧
    List.Sorted (searchRank [2, 1])
      (search [2, 1] 1 ⟨some 7, none⟩
        ⟨[⟨1, 0, [1, 0], ⟨10, some 7, none⟩⟩, ⟨2, 1, [0, 1], ⟨11, none, none⟩⟩],
         fun _ => some DocStatus.Indexed⟩) :=
  search_spec [2, 1] 1 ⟨some 7, none⟩
    ⟨[⟨1, 0, [1, 0], ⟨10, some 7, none⟩⟩, ⟨2, 1, [0, 1], ⟨11, none, none⟩⟩],
     fun _ => some DocStatus.Indexed⟩

/-! ## Ingestion Pipeline (spec §4.4, §5) -/

/-- Modelled from the spec: pipeline configuration §6 — chunking parameters,
embedder max batch size and retry budget (`MAX_RETRIES`). -/
structure PipelineConfig where
  chunkCfg : ChunkConfig
  maxBatch : Nat
  maxRetries : Nat

/-- Modelled from the spec: the external collaborator outcomes observed while
ingesting one document §4.4/§6 — the extraction result from the document
store, the embedding service's availability per retry attempt, and the
document's regulation/jurisdiction links. -/
structure IngestInput where
  extracted : Option (List Char)
  embedderUp : Nat → Bool
  regulation_id : Option Nat
  jurisdiction_id : Option Nat

/-- Modelled from the spec: §5 retry policy — the embedder call succeeds if
the service is up on some attempt within the retry budget; otherwise the
pipeline fails with `EmbeddingUnavailable`. -/
def embedderReachable (up : Nat → Bool) (budget : Nat) : Bool :=
  (List.range budget).any up

/-- Replace the index and set one document's status in a single step (the
atomicity boundary of §4.4/§5). -/
def withStatus (st : RagState) (idx : List IndexEntry) (d : Nat) (s : DocStatus) :
    RagState :=
  ⟨idx, fun x => if x = d then some s else st.status x⟩

/-- The index entries built for document `d` from its chunks and their
embedding vectors (one entry per chunk, metadata snapshot of the document's
links §3). -/
def mkEntries (d : Nat) (inp : IngestInput) (model : List Char → Vec)
    (cfg : PipelineConfig) (cs : List Chunk) : List IndexEntry :=
  List.zipWith
    (fun (c : Chunk) (v : Vec) =>
      (⟨Nat.pair d c.seq, c.seq, v, ⟨d, inp.regulation_id, inp.jurisdiction_id⟩⟩ :
        IndexEntry))
    cs (embed model cfg.maxBatch (cs.map (fun c => c.text)))

/-- Modelled from the spec: Ingestion Pipeline §4.4 — processing (or
re-processing) document `d` first discards its prior index entries, then runs
extraction → chunking → embedding; on success it atomically upserts the new
entry set and marks the document `Indexed`, and on failure at any stage the
document ends `Failed` with the stage's error and no index entry for it
remains (the implementation is absent from the repository). -/
def ingestDoc (cfg : PipelineConfig) (model : List Char → Vec) (d : Nat)
    (inp : IngestInput) (st : RagState) : RagState :=
  let cleared := deleteByDocument d st.index
  match inp.extracted with
  | none => withStatus st cleared d (.Failed .ExtractionFailed)
  | some text =>
    if text.length = 0 then
      withStatus st cleared d (.Failed .ExtractionFailed)
    else
      match chunk text cfg.chunkCfg with
      | .error _ => withStatus st cleared d (.Failed .InvalidConfig)
      | .ok cs =>
        if embedderReachable inp.embedderUp (cfg.maxRetries + 1) then
          withStatus st (upsert (mkEntries d inp model cfg cs) cleared) d .Indexed
        else
          withStatus st cleared d (.Failed .EmbeddingUnavailable)

/-- Modelled from the spec: deleting a document §3/§4.3 — removes its index
entries and its row in the document-status table. -/
def deleteDoc (d : Nat) (st : RagState) : RagState :=
  ⟨deleteByDocument d st.index, fun x => if x = d then none else st.status x⟩

/-- The empty core state: no index entries, no document rows. -/
def initialState : RagState := ⟨[], fun _ => none⟩

/-- States of the Vector Index and document-status table reachable by
ingestion, re-processing (an `ingest` of an already-processed document) and
deletion. -/
inductive Reachable : RagState → Prop
  | init : Reachable initialState
  | ingest (cfg : PipelineConfig) (model : List Char → Vec) (d : Nat)
      (inp : IngestInput) (st : RagState) :
      Reachable st → Reachable (ingestDoc cfg model d inp st)
  | delete (d : Nat) (st : RagState) :
      Reachable st → Reachable (deleteDoc d st)

/-- The §4.3 invariant: every index entry belongs to a document in `Indexed`
status. -/
def IndexConsistent (st : RagState) : Prop :=
  ∀ e ∈ st.index, st.status e.meta.document_id = some DocStatus.Indexed

theorem mem_deleteByDocument (d : Nat) (idx : List IndexEntry) (e : IndexEntry)
    (h : e ∈ deleteByDocument d idx) : e ∈ idx ∧ e.meta.document_id ≠ d := by
  unfold deleteByDocument at h
  have := List.mem_filter.mp h
  refine ⟨this.1, ?_⟩
  simpa using this.2

theorem mem_upsert (entries idx : List IndexEntry) (e : IndexEntry)
    (h : e ∈ upsert entries idx) : e ∈ entries ∨ e ∈ idx := by
  unfold upsert at h
  rcases List.mem_append.mp h with h | h
  · exact Or.inl h
  · exact Or.inr (List.mem_filter.mp h).1

theorem mem_zipWith_exists {α β γ : Type} (g : α → β → γ) :
    ∀ (l1 : List α) (l2 : List β) (c : γ), c ∈ List.zipWith g l1 l2 →
      ∃ a b, c = g a b := by
  intro l1
  induction l1 with
  | nil => intro l2 c h; simp at h
  | cons a as ih =>
    intro l2 c h
    cases l2 with
    | nil => simp at h
    | cons b bs =>
      rcases List.mem_cons.mp h with h | h
      · exact ⟨a, b, h⟩
      · exact ih bs c h

theorem mem_mkEntries_document_id (d : Nat) (inp : IngestInput)
    (model : List Char → Vec) (cfg : PipelineConfig) (cs : List Chunk)
    (e : IndexEntry) (h : e ∈ mkEntries d inp model cfg cs) :
    e.meta.document_id = d := by
  rcases mem_zipWith_exists _ cs _ e h with ⟨c, v, rfl⟩
  rfl

/-- Modelled from the spec: the per-document outcome of running the ingestion
stages of §4.4 on one document, as a function of that document's own
collaborator results only. -/
def ingestOutcome (cfg : PipelineConfig) (inp : IngestInput) : DocStatus :=
  match inp.extracted with
  | none => .Failed .ExtractionFailed
  | some text =>
    if text.length = 0 then
      .Failed .ExtractionFailed
    else
      match chunk text cfg.chunkCfg with
      | .error _ => .Failed .InvalidConfig
      | .ok _ =>
        if embedderReachable inp.embedderUp (cfg.maxRetries + 1) then .Indexed
        else .Failed .EmbeddingUnavailable

theorem chunk_ok_of_valid (text : List Char) (cfg : ChunkConfig)
    (h2 : cfg.chunk_overlap < cfg.chunk_size) (hlen : ¬ text.length = 0) :
    chunk text cfg =
      .ok (chunksAux text cfg.chunk_size (cfg.chunk_size - cfg.chunk_overlap)
            (text.length + 1) 0 0) := by
  unfold chunk
  rw [if_neg (by omega), if_neg hlen]

theorem ingestDoc_status_ne (cfg : PipelineConfig) (model : List Char → Vec)
    (d : Nat) (inp : IngestInput) (st : RagState) (x : Nat) (hx : x ≠ d) :
    (ingestDoc cfg model d inp st).status x = st.status x := by
  unfold ingestDoc
  cases inp.extracted with
  | none => simp [withStatus, hx]
  | some text =>
    by_cases hlen : text.length = 0
    · simp [hlen, withStatus, hx]
    · cases hc : chunk text cfg.chunkCfg with
      | error err => simp [hlen, hc, withStatus, hx]
      | ok cs =>
        by_cases hemb : embedderReachable inp.embedderUp (cfg.maxRetries + 1) = true
        · simp [hlen, hc, hemb, withStatus, hx]
        · simp [hlen, hc, hemb, withStatus, hx]

theorem ingestDoc_status_self (cfg : PipelineConfig) (model : List Char → Vec)
    (d : Nat) (inp : IngestInput) (st : RagState) :
    (ingestDoc cfg model d inp st).status d = some (ingestOutcome cfg inp) := by
  unfold ingestDoc ingestOutcome
  cases inp.extracted with
  | none => simp [withStatus]
  | some text =>
    by_cases hlen : text.length = 0
    · simp [hlen, withStatus]
    · cases hc : chunk text cfg.chunkCfg with
      | error err => simp [hlen, hc, withStatus]
      | ok cs =>
        by_cases hemb : embedderReachable inp.embedderUp (cfg.maxRetries + 1) = true
        · simp [hlen, hc, hemb, withStatus]
        · simp [hlen, hc, hemb, withStatus]

/-- Index membership after ingesting document `d`: the entry either belongs to
`d` (then the run ended `Indexed`) or survived from the old index and belongs
to another document. -/
theorem ingestDoc_index_mem (cfg : PipelineConfig) (model : List Char → Vec)
    (d : Nat) (inp : IngestInput) (st : RagState) (e : IndexEntry)
    (h : e ∈ (ingestDoc cfg model d inp st).index) :
    (e.meta.document_id = d ∧ ingestOutcome cfg inp = .Indexed) ∨
    (e ∈ st.index ∧ e.meta.document_id ≠ d) := by
  unfold ingestDoc at h
  unfold ingestOutcome
  cases hx : inp.extracted with
  | none =>
    rw [hx] at h
    exact Or.inr (mem_deleteByDocument d st.index e h)
  | some text =>
    rw [hx] at h
    by_cases hlen : text.length = 0
    · simp only [if_pos hlen] at h
      exact Or.inr (mem_deleteByDocument d st.index e h)
    · simp only [if_neg hlen] at h ⊢
      cases hc : chunk text cfg.chunkCfg with
      | error err =>
        rw [hc] at h
        exact Or.inr (mem_deleteByDocument d st.index e h)
      | ok cs =>
        rw [hc] at h
        dsimp only at h
        by_cases hemb : embedderReachable inp.embedderUp (cfg.maxRetries + 1) = true
        · rw [if_pos hemb] at h
          rcases mem_upsert _ _ e h with hnew | hold
          · refine Or.inl ⟨mem_mkEntries_document_id d inp model cfg cs e hnew, ?_⟩
            dsimp only
            rw [if_pos hemb]
          · exact Or.inr (mem_deleteByDocument d st.index e hold)
        · rw [if_neg hemb] at h
          exact Or.inr (mem_deleteByDocument d st.index e h)

/-- Every reachable state satisfies the §4.3 invariant. -/
theorem reachable_indexConsistent (st : RagState) (h : Reachable st) :
    IndexConsistent st := by
  induction h with
  | init => intro e he; simp [initialState] at he
  | ingest cfg model d inp st _ ih =>
    intro e he
    rcases ingestDoc_index_mem cfg model d inp st e he with ⟨hd, hout⟩ | ⟨hold, hne⟩
    · rw [hd, ingestDoc_status_self, hout]
    · rw [ingestDoc_status_ne cfg model d inp st _ hne]
      exact ih e hold
  | delete d st _ ih =>
    intro e he
    have hm := mem_deleteByDocument d st.index e he
    simp only [deleteDoc, if_neg hm.2]
    exact ih e hm.1

/-- When the embedder is unavailable for the full retry budget, ingestion of
`d` leaves exactly the old index purged of `d`'s entries and marks `d`
`Failed EmbeddingUnavailable`. -/
theorem ingestDoc_emb_unavailable (cfg : PipelineConfig) (model : List Char → Vec)
    (d : Nat) (inp : IngestInput) (st : RagState) (text : List Char)
    (hext : inp.extracted = some text) (hlen : ¬ text.length = 0)
    (hcfg : cfg.chunkCfg.chunk_overlap < cfg.chunkCfg.chunk_size)
    (hemb : embedderReachable inp.embedderUp (cfg.maxRetries + 1) = false) :
    ingestDoc cfg model d inp st =
      withStatus st (deleteByDocument d st.index) d
        (.Failed .EmbeddingUnavailable) := by
  unfold ingestDoc
  rw [hext]
  dsimp only
  rw [if_neg hlen, chunk_ok_of_valid text cfg.chunkCfg hcfg hlen]
  dsimp only
  rw [if_neg (by simp [hemb])]

/-- C1: In every state reachable by ingestion, re-processing and deletion,
`search` never returns an entry whose document is not in `Indexed` status; and
when ingestion of a document `X` fails because the embedder is unavailable for
the full retry budget, `X` ends in `Failed EmbeddingUnavailable` and no index
entry for `X` is visible to `search`. -/
theorem search_only_indexed (st : RagState) (h : Reachable st)
    (cfg : PipelineConfig) (model : List Char → Vec) (X : Nat)
    (inp : IngestInput) (text : List Char)
    (hext : inp.extracted = some text) (hlen : ¬ text.length = 0)
    (hcfg : cfg.chunkCfg.chunk_overlap < cfg.chunkCfg.chunk_size)
    (hemb : embedderReachable inp.embedderUp (cfg.maxRetries + 1) = false) :
    (∀ q k f e, e ∈ search q k f st →
        st.status e.meta.document_id = some DocStatus.Indexed) ∧
    (ingestDoc cfg model X inp st).status X =
      some (DocStatus.Failed RagError.EmbeddingUnavailable) ∧
    (∀ q k f e, e ∈ search q k f (ingestDoc cfg model X inp st) →
        e.meta.document_id ≠ X) := by
  refine ⟨?_, ?_, ?_⟩
  · intro q k f e he
    exact reachable_indexConsistent st h e (mem_search q k f st e he).1
  · rw [ingestDoc_emb_unavailable cfg model X inp st text hext hlen hcfg hemb]
    simp [withStatus]
  · intro q k f e he
    have hm := (mem_search q k f _ e he).1
    rw [ingestDoc_emb_unavailable cfg model X inp st text hext hlen hcfg hemb] at hm
    exact (mem_deleteByDocument X st.index e hm).2

/-- Witness for C1: starting from the empty state, ingesting document 5 with
the embedding service down on every attempt. -/
theorem search_only_indexed_witness :
    (∀ q k f e, e ∈ search q k f initialState →
        initialState.status e.meta.document_id = some DocStatus.Indexed) ∧
    (ingestDoc ⟨⟨4, 2⟩, 2, 1⟩ (fun _ => [1]) 5
        ⟨some "hello".data, fun _ => false, none, none⟩ initialState).status 5 =
      some (DocStatus.Failed RagError.EmbeddingUnavailable) ∧
    (∀ q k f e, e ∈ search q k f (ingestDoc ⟨⟨4, 2⟩, 2, 1⟩ (fun _ => [1]) 5
        ⟨some "hello".data, fun _ => false, none, none⟩ initialState) →
        e.meta.document_id ≠ 5) :=
  search_only_indexed initialState Reachable.init ⟨⟨4, 2⟩, 2, 1⟩ (fun _ => [1]) 5
    ⟨some "hello".data, fun _ => false, none, none⟩ "hello".data rfl (by decide)
    (by decide) (by decide)

/-! ## Batch processing (spec §4.4, §7) -/

/-- Modelled from the spec: `processBatch` §4.4/§7 — runs the ingestion
pipeline independently per document, in order, and collects each document's
outcome into a per-document result map; failures are never raised as a single
aggregate error (the implementation is absent from the repository; the
frontend call site is `documentsAPI.processBatch` in `src/App.tsx`). -/
def processBatch (cfg : PipelineConfig) (model : List Char → Vec)
    (inp : Nat → IngestInput) :
    List Nat → RagState → RagState × List (Nat × DocStatus)
  | [], st => (st, [])
  | d :: ds, st =>
    let rest := processBatch cfg model inp ds (ingestDoc cfg model d (inp d) st)
    (rest.1, (d, ingestOutcome cfg (inp d)) :: rest.2)

/-- Processing a batch leaves the status of any document outside the batch
unchanged. -/
theorem processBatch_status_not_mem (cfg : PipelineConfig)
    (model : List Char → Vec) (inp : Nat → IngestInput) :
    ∀ (docs : List Nat) (st : RagState) (d : Nat), d ∉ docs →
      (processBatch cfg model inp docs st).1.status d = st.status d := by
  intro docs
  induction docs with
  | nil => intro st d _; rfl
  | cons a ds ih =>
    intro st d hd
    have h1 : d ∉ ds := fun hh => hd (List.mem_cons_of_mem a hh)
    have h2 : d ≠ a := fun hh => hd (hh ▸ List.mem_cons_self a ds)
    show (processBatch cfg model inp ds
        (ingestDoc cfg model a (inp a) st)).1.status d = st.status d
    rw [ih _ d h1, ingestDoc_status_ne _ _ _ _ _ _ h2]

/-- C2: `processBatch` runs the pipeline independently per document: each
document of the batch ends (both in the final state and in the returned
per-document result map) with exactly the outcome of its own pipeline run —
so one document's failure neither blocks nor rolls back the others, and
failures are reported per document, never as one aggregate error. -/
theorem processBatch_per_document (cfg : PipelineConfig)
    (model : List Char → Vec) (inp : Nat → IngestInput) :
    ∀ (docs : List Nat) (st : RagState), docs.Nodup → ∀ d ∈ docs,
      (processBatch cfg model inp docs st).1.status d =
        some (ingestOutcome cfg (inp d)) ∧
      List.lookup d (processBatch cfg model inp docs st).2 =
        some (ingestOutcome cfg (inp d)) := by
  intro docs
  induction docs with
  | nil => intro st _ d hd; simp at hd
  | cons a ds ih =>
    intro st hnd d hd
    rcases List.mem_cons.mp hd with rfl | hmem
    · have hnotin : d ∉ ds := (List.nodup_cons.mp hnd).1
      constructor
      · show (processBatch cfg model inp ds
            (ingestDoc cfg model d (inp d) st)).1.status d = _
        rw [processBatch_status_not_mem cfg model inp ds _ d hnotin,
          ingestDoc_status_self]
      · show List.lookup d ((d, ingestOutcome cfg (inp d)) :: _) = _
        simp [List.lookup]
    · have hnd' : ds.Nodup := (List.nodup_cons.mp hnd).2
      have hne : d ≠ a := by
        rintro rfl
        exact (List.nodup_cons.mp hnd).1 hmem
      have hih := ih (ingestDoc cfg model a (inp a) st) hnd' d hmem
      refine ⟨hih.1, ?_⟩
      show List.lookup d ((a, ingestOutcome cfg (inp a)) :: _) = _
      rw [List.lookup_cons]
      have hba : (d == a) = false := by simpa using hne
      rw [hba]
      exact hih.2

/-- Witness for C2: a batch `[1, 2, 3]` in which document 2 fails extraction;
document 3 still reaches `Indexed`, both in the final state and in the
returned result map. -/
theorem processBatch_per_document_witness :
    (processBatch ⟨⟨4, 2⟩, 2, 1⟩ (fun _ => [1])
        (fun d => if d = 2 then ⟨none, fun _ => true, none, none⟩
                  else ⟨some "hello".data, fun _ => true, none, none⟩)
        [1, 2, 3] initialState).1.status 3 = some DocStatus.Indexed ∧
    List.lookup 3 (processBatch ⟨⟨4, 2⟩, 2, 1⟩ (fun _ => [1])
        (fun d => if d = 2 then ⟨none, fun _ => true, none, none⟩
                  else ⟨some "hello".data, fun _ => true, none, none⟩)
        [1, 2, 3] initialState).2 = some DocStatus.Indexed :=
  processBatch_per_document ⟨⟨4, 2⟩, 2, 1⟩ (fun _ => [1])
    (fun d => if d = 2 then ⟨none, fun _ => true, none, none⟩
              else ⟨some "hello".data, fun _ => true, none, none⟩)
    [1, 2, 3] initialState (by decide) 3 (by decide)

/-! ## Retriever (spec §4.5) -/

/-- Modelled from the spec: a Retrieved Passage §3 — chunk, provenance and
similarity score. -/
structure RetrievedPassage where
  chunk_id : Nat
  document_id : Nat
  regulation_id : Option Nat
  text : List Char
  score : ℚ
deriving DecidableEq, Repr

/-- Keep only the first (= highest-ranked) entry for each document_id; fuel
bounds the recursion. -/
def dedupByDocAux : Nat → List IndexEntry → List IndexEntry
  | 0, _ => []
  | _, [] => []
  | fuel + 1, e :: es =>
    e :: dedupByDocAux fuel
      (es.filter (fun f => f.meta.document_id != e.meta.document_id))

/-- Deduplicate a ranked entry list by document_id, keeping the first
occurrence for each document (the highest-scoring chunk per document, since
the input is ranked). -/
def dedupByDoc (l : List IndexEntry) : List IndexEntry :=
  dedupByDocAux l.length l

/-- Modelled from the spec: Retriever §4.5 — embed the query, `search` the
index with `k' = k * over-fetch-factor`, drop entries below
`similarity_threshold`, deduplicate by document_id keeping the
highest-scoring chunk per document, truncate to `k`, and attach provenance
(the chunk store collaborator `chunkText` supplies passage text; the
implementation is absent from the repository). -/
def retrieve (model : List Char → Vec) (chunkText : Nat → List Char)
    (overFetch : Nat) (q : List Char) (k : Nat) (f : QueryFilter)
    (threshold : ℚ) (st : RagState) : List RetrievedPassage :=
  let qv := model q
  let hits := search qv (k * overFetch) f st
  let kept := hits.filter (fun e => threshold ≤ dot qv e.vec)
  ((dedupByDoc kept).take k).map
    (fun e => ⟨e.chunk_id, e.meta.document_id, e.meta.regulation_id,
               chunkText e.chunk_id, dot qv e.vec⟩)

theorem dedupByDocAux_subset :
    ∀ (fuel : Nat) (l : List IndexEntry) (e : IndexEntry),
      e ∈ dedupByDocAux fuel l → e ∈ l := by
  intro fuel
  induction fuel with
  | zero => intro l e h; simp [dedupByDocAux] at h
  | succ fuel ih =>
    intro l e h
    cases l with
    | nil => simp [dedupByDocAux] at h
    | cons a as =>
      rcases List.mem_cons.mp h with rfl | h
      · exact List.mem_cons_self _ _
      · exact List.mem_cons_of_mem a (List.mem_of_mem_filter (ih _ e h))

theorem dedupByDocAux_pairwise :
    ∀ (fuel : Nat) (l : List IndexEntry),
      List.Pairwise (fun a b => a.meta.document_id ≠ b.meta.document_id)
        (dedupByDocAux fuel l) := by
  intro fuel
  induction fuel with
  | zero => intro l; simp [dedupByDocAux]
  | succ fuel ih =>
    intro l
    cases l with
    | nil => simp [dedupByDocAux]
    | cons a as =>
      refine List.Pairwise.cons ?_ (ih _)
      intro b hb
      have := List.mem_filter.mp (dedupByDocAux_subset fuel _ b hb)
      simpa using fun hcon => by simp [hcon] at this

/-- C3: `retrieve` — the composition of query embedding, over-fetched
`search`, thresholding, per-document deduplication and truncation to `k` —
returns at most `k` passages and never two passages with the same
document_id. -/
theorem retrieve_spec (model : List Char → Vec) (chunkText : Nat → List Char)
    (overFetch : Nat) (q : List Char) (k : Nat) (f : QueryFilter)
    (threshold : ℚ) (st : RagState) :
    (retrieve model chunkText overFetch q k f threshold st).length ≤ k ∧
    List.Pairwise (fun a b => a.document_id ≠ b.document_id)
      (retrieve model chunkText overFetch q k f threshold st) := by
  constructor
  · unfold retrieve
    rw [List.length_map]
    exact (List.length_take k _).le.trans (Nat.min_le_left _ _)
  · unfold retrieve
    rw [List.pairwise_map]
    exact List.Pairwise.take (dedupByDocAux_pairwise _ _)

/-- Witness for C3 at a concrete two-document index, `k = 1` and threshold
0. -/
theorem retrieve_spec_witness :
    (retrieve (fun _ => [1, 1]) (fun _ => "t".data) 4 "q".data 1 ⟨none, none⟩ 0
        ⟨[⟨1, 0, [1, 0], ⟨10, none, none⟩⟩, ⟨2, 1, [0, 1], ⟨10, none, none⟩⟩],
         fun _ => some DocStatus.Indexed⟩).length ≤ 1 ∧
    List.Pairwise (fun a b => a.document_id ≠ b.document_id)
      (retrieve (fun _ => [1, 1]) (fun _ => "t".data) 4 "q".data 1 ⟨none, none⟩ 0
        ⟨[⟨1, 0, [1, 0], ⟨10, none, none⟩⟩, ⟨2, 1, [0, 1], ⟨10, none, none⟩⟩],
         fun _ => some DocStatus.Indexed⟩) :=
  retrieve_spec (fun _ => [1, 1]) (fun _ => "t".data) 4 "q".data 1 ⟨none, none⟩ 0
    ⟨[⟨1, 0, [1, 0], ⟨10, none, none⟩⟩, ⟨2, 1, [0, 1], ⟨10, none, none⟩⟩],
     fun _ => some DocStatus.Indexed⟩

/-! ## Answer Composer (spec §4.6) -/

/-- `startsWithSub sub s` : `sub` is a leading segment of `s`. -/
def startsWithSub : List Char → List Char → Bool
  | [], _ => true
  | _ :: _, [] => false
  | a :: sub, b :: s => a == b && startsWithSub sub s

/-- `containsSub sub s` : `sub` occurs contiguously somewhere in `s`. -/
def containsSub (sub : List Char) : List Char → Bool
  | [] => startsWithSub sub []
  | b :: s => startsWithSub sub (b :: s) || containsSub sub s

/-- Modelled from the spec: generation failures §4.6/§7 — surfaced to the
caller as a structured error, distinct from any successful answer. -/
inductive GenError
  | GenerationTimeout
  | GenerationUnavailable
deriving DecidableEq, Repr

/-- Modelled from the spec: a composed answer §4.6 — answer text plus
citations mapping back to the originating passages' regulation ids and
verbatim excerpts. -/
structure ComposedAnswer where
  answer : List Char
  citations : List (Option Nat × List Char)
deriving DecidableEq, Repr

/-- Modelled from the spec: the outcome of one LLM inference call §4.6/§5 —
a completion, a deadline overrun, or unavailability after retries. -/
inductive LLMResult
  | ok (completion : List Char)
  | timeout
  | unavailable

/-- The label attached to passage `i` in the prompt and looked for in the
completion as a citation marker. -/
def citationMarker (i : Nat) : List Char :=
  '[' :: (Nat.repr (i + 1)).data ++ [']']

/-- Modelled from the spec: prompt assembly §4.6 — the passages as labeled
context blocks followed by the query. -/
def buildPrompt (q : List Char) (ps : List RetrievedPassage) : List Char :=
  ((ps.enum).map (fun ip => citationMarker ip.1 ++ ip.2.text ++ ['\n'])).flatten ++ q

/-- Modelled from the spec: citation extraction §4.6 — passages whose marker
occurs in the completion, mapped to their regulation_id and verbatim
excerpt. -/
def extractCitations (completion : List Char) (ps : List RetrievedPassage) :
    List (Option Nat × List Char) :=
  ((ps.enum).filter (fun ip => containsSub (citationMarker ip.1) completion)).map
    (fun ip => (ip.2.regulation_id, ip.2.text))

/-- The deterministic response composed when no passage grounds the query. -/
def insufficientGroundingAnswer : ComposedAnswer :=
  ⟨("I do not have enough grounded regulatory context to answer this" ++
    " question.").data, []⟩

/-- Modelled from the spec: Answer Composer §4.6 — `compose(query, passages)`
returns the deterministic insufficient-grounding response when `passages` is
empty (without invoking the LLM); otherwise it invokes the LLM collaborator on
the assembled prompt and either surfaces `GenerationTimeout` /
`GenerationUnavailable` as structured errors or post-processes the completion
into an answer with citations (the implementation is absent from the
repository; the frontend call site is `assistantAPI.query` in
`src/App.tsx`). -/
def compose (llm : List Char → LLMResult) (q : List Char)
    (ps : List RetrievedPassage) : Except GenError ComposedAnswer :=
  match ps with
  | [] => .ok insufficientGroundingAnswer
  | _ :: _ =>
    match llm (buildPrompt q ps) with
    | .timeout => .error .GenerationTimeout
    | .unavailable => .error .GenerationUnavailable
    | .ok completion => .ok ⟨completion, extractCitations completion ps⟩

/-- C7: called with an empty passage sequence, `compose` deterministically
returns the explicit insufficient-grounding answer as a successful result —
for every LLM collaborator — and this outcome is never one of the structured
failures `GenerationTimeout` / `GenerationUnavailable`. -/
theorem compose_empty_passages (llm : List Char → LLMResult) (q : List Char) :
    compose llm q [] = .ok insufficientGroundingAnswer ∧
    (∀ err : GenError, compose llm q [] ≠ .error err) := by
  refine ⟨rfl, ?_⟩
  intro err hcon
  simp [compose] at hcon

/-- Witness for C7 with a concrete failing LLM collaborator: the empty-passage
branch still returns the insufficient-grounding answer. -/
theorem compose_empty_passages_witness :
    compose (fun _ => LLMResult.unavailable) "what is rule 7?".data [] =
        .ok insufficientGroundingAnswer ∧
    (∀ err : GenError,
      compose (fun _ => LLMResult.unavailable) "what is rule 7?".data [] ≠
        .error err) :=
  compose_empty_passages (fun _ => LLMResult.unavailable) "what is rule 7?".data

/-! ## SQL: entity risk score
(`supabase/migrations/20250318175011_polished_grove.sql`) -/

/-- Failure modes of the PL/pgSQL functions in the migrations:
`AmbiguousColumn` is SQLSTATE 42702 (an unqualified name in an embedded SQL
statement matches both a query column and a PL/pgSQL variable),
`InvalidBody` is a function body that fails PL/pgSQL parsing (raised when the
body is checked at `CREATE FUNCTION` or at first call), and `CaseNotFound` is
a `CASE` statement without `ELSE` whose branches all fail to match. -/
inductive PgError
  | AmbiguousColumn
  | InvalidBody
  | CaseNotFound
deriving DecidableEq, Repr

/-- PL/pgSQL resolution of an unqualified name in an embedded SQL statement
under the default `plpgsql.variable_conflict = error` setting (none of the
migrations overrides it): a name matching both a query column and a PL/pgSQL
variable raises `column reference is ambiguous` (SQLSTATE 42702) at run
time. -/
def resolveUnqualifiedName (matchesQueryColumn matchesPlpgsqlVar : Bool) :
    Except PgError Unit :=
  if matchesQueryColumn && matchesPlpgsqlVar then .error .AmbiguousColumn
  else .ok ()

/-- A row of the `entity_risk_factors` table: the two columns aggregated by
`update_entity_risk_score`. -/
structure RiskFactorRow where
  risk_contribution : Int
  confidence_score : Int
deriving DecidableEq, Repr

/-- The column CHECK constraints of `entity_risk_factors`:
`risk_contribution >= 0 AND risk_contribution <= 100`,
`confidence_score >= 0 AND confidence_score <= 100`. -/
def entity_risk_factors_check (r : RiskFactorRow) : Bool :=
  decide (0 ≤ r.risk_contribution) && decide (r.risk_contribution ≤ 100) &&
  decide (0 ≤ r.confidence_score) && decide (r.confidence_score ≤ 100)

/-- The CHECK constraint on `entities.risk_score`:
`risk_score >= 0 AND risk_score <= 100`. -/
def entities_risk_score_check (n : Int) : Bool :=
  decide (0 ≤ n) && decide (n ≤ 100)

/-- One aggregated term: `risk_contribution * confidence_score / 100.0` in
exact numeric arithmetic. -/
def riskFactorTerm (r : RiskFactorRow) : ℚ :=
  (r.risk_contribution : ℚ) * (r.confidence_score : ℚ) / 100

/-- The value the aggregate of `update_entity_risk_score` is written to
compute (the function's `new_risk_score` variable):
`COALESCE(ROUND(AVG(risk_contribution * confidence_score / 100.0)), 0)` over
the entity's rows of `entity_risk_factors` — `AVG` over zero rows is NULL so
`COALESCE` yields 0; `ROUND` on a nonnegative numeric is round-half-up, which
agrees with Mathlib's `round`. -/
def new_risk_score (rows : List RiskFactorRow) : Int :=
  match rows with
  | [] => 0
  | _ :: _ => round ((rows.map riskFactorTerm).sum / (rows.length : ℚ))

/-- Shallow embedding of `update_entity_risk_score` from
`20250318175011_polished_grove.sql`.  Its aggregate query reads
`FROM entity_risk_factors WHERE entity_id = $1`: the unqualified `entity_id`
matches both the `entity_risk_factors.entity_id` column and the function's
parameter, which is itself named `entity_id` — so under the default
`plpgsql.variable_conflict = error` every call raises 42702 before the
aggregate is evaluated or the UPDATE of `entities` runs.  The value the
aggregate would produce over the entity's rows is `new_risk_score`. -/
def update_entity_risk_score (rows : List RiskFactorRow) : Except PgError Int :=
  (resolveUnqualifiedName true true).map (fun _ => new_risk_score rows)

theorem riskFactorTerm_bounds (r : RiskFactorRow)
    (hr : entity_risk_factors_check r = true) :
    0 ≤ riskFactorTerm r ∧ riskFactorTerm r ≤ 100 := by
  simp only [entity_risk_factors_check, Bool.and_eq_true, decide_eq_true_eq] at hr
  obtain ⟨⟨⟨h1, h2⟩, h3⟩, h4⟩ := hr
  have c0 : (0 : ℚ) ≤ r.risk_contribution := by exact_mod_cast h1
  have c1 : (r.risk_contribution : ℚ) ≤ 100 := by exact_mod_cast h2
  have c2 : (0 : ℚ) ≤ r.confidence_score := by exact_mod_cast h3
  have c3 : (r.confidence_score : ℚ) ≤ 100 := by exact_mod_cast h4
  unfold riskFactorTerm
  constructor
  · exact div_nonneg (mul_nonneg c0 c2) (by norm_num)
  · rw [div_le_iff₀ (by norm_num : (0 : ℚ) < 100)]
    have hmul : (r.risk_contribution : ℚ) * r.confidence_score ≤ 100 * 100 :=
      mul_le_mul c1 c3 c2 (by norm_num)
    linarith

/-- The value the aggregate was written to compute is the claim's intent: it
is 0 for no rows and satisfies the `entities.risk_score` CHECK constraint
whenever every row satisfies the `entity_risk_factors` column constraints —
but `update_entity_risk_score` raises before ever computing or writing it. -/
theorem new_risk_score_in_check (rows : List RiskFactorRow)
    (h : ∀ r ∈ rows, entity_risk_factors_check r = true) :
    (rows = [] → new_risk_score rows = 0) ∧
    entities_risk_score_check (new_risk_score rows) = true := by
  refine ⟨?_, ?_⟩
  · rintro rfl; rfl
  · cases rows with
    | nil => rfl
    | cons r0 rest =>
      have hterms : ∀ t ∈ (r0 :: rest).map riskFactorTerm, 0 ≤ t ∧ t ≤ 100 := by
        intro t ht
        rcases List.mem_map.mp ht with ⟨r, hr, rfl⟩
        exact riskFactorTerm_bounds r (h r hr)
      have hn : (0 : ℚ) < (((r0 :: rest).length : Nat) : ℚ) := by
        have : 0 < (r0 :: rest).length := Nat.succ_pos _
        exact_mod_cast this
      have hsum0 : 0 ≤ ((r0 :: rest).map riskFactorTerm).sum :=
        List.sum_nonneg (fun t ht => (hterms t ht).1)
      have hsum1 : ((r0 :: rest).map riskFactorTerm).sum ≤
          ((((r0 :: rest).map riskFactorTerm).length : Nat) : ℚ) * 100 := by
        have := List.sum_le_card_nsmul ((r0 :: rest).map riskFactorTerm) 100
          (fun t ht => (hterms t ht).2)
        simpa [nsmul_eq_mul] using this
      have hlen : (((r0 :: rest).map riskFactorTerm).length : Nat) =
          (r0 :: rest).length := List.length_map _ _
      have havg0 : 0 ≤ ((r0 :: rest).map riskFactorTerm).sum /
          (((r0 :: rest).length : Nat) : ℚ) := div_nonneg hsum0 (le_of_lt hn)
      have havg1 : ((r0 :: rest).map riskFactorTerm).sum /
          (((r0 :: rest).length : Nat) : ℚ) ≤ 100 := by
        rw [div_le_iff₀ hn]
        calc ((r0 :: rest).map riskFactorTerm).sum
            ≤ ((((r0 :: rest).map riskFactorTerm).length : Nat) : ℚ) * 100 := hsum1
          _ = 100 * (((r0 :: rest).length : Nat) : ℚ) := by rw [hlen]; ring
      show entities_risk_score_check
        (round (((r0 :: rest).map riskFactorTerm).sum /
          (((r0 :: rest).length : Nat) : ℚ))) = true
      simp only [entities_risk_score_check, Bool.and_eq_true, decide_eq_true_eq]
      rw [round_eq]
      constructor
      · exact Int.le_floor.mpr (by push_cast; linarith)
      · have hfl : ⌊((r0 :: rest).map riskFactorTerm).sum /
            (((r0 :: rest).length : Nat) : ℚ) + 1 / 2⌋ < 101 :=
          Int.floor_lt.mpr (by push_cast; linarith)
        omega

/-- C9: code bug — every call of `update_entity_risk_score` raises
`column reference "entity_id" is ambiguous` (SQLSTATE 42702), because the
function parameter `entity_id` shadows the `entity_risk_factors.entity_id`
column in `WHERE entity_id = $1` under the default
`plpgsql.variable_conflict = error`.  At the failing inputs — an entity with
no risk-factor rows, and one with a constraint-satisfying row — the function
returns the error instead of writing a risk score; in particular it never
"writes and returns 0" for a row-less entity, although 0 is exactly the value
(`new_risk_score []`) its aggregate was written to produce. -/
theorem update_entity_risk_score_raises_42702 :
    update_entity_risk_score [] = .error PgError.AmbiguousColumn ∧
    update_entity_risk_score [⟨50, 80⟩] = .error PgError.AmbiguousColumn ∧
    new_risk_score [] = 0 :=
  ⟨rfl, rfl, rfl⟩

/-! ## SQL: alert priority analysis
(`supabase/migrations/20250315073851_navy_plain.sql`) -/

/-- The `regulatory_update_type` enum. -/
inductive RegulatoryUpdateType
  | RuleChange
  | Guidance
  | Advisory
  | EnforcementAction
  | PressRelease
  | Bulletin
  | Notice
  | Other
deriving DecidableEq, Repr

/-- The `alert_priority` enum. -/
inductive AlertPriority
  | High
  | Medium
  | Low
deriving DecidableEq, Repr

/-- Well-formedness of a PL/pgSQL `CASE` statement: each branch must be a
semicolon-terminated statement list and the construct must close with
`END CASE;`; otherwise the function body fails to parse and any use of the
function fails before its logic runs. -/
def plpgsqlCaseStatementWellFormed (branchesTerminated closedWithEndCase : Bool) :
    Except PgError Unit :=
  if branchesTerminated && closedWithEndCase then .ok ()
  else .error .InvalidBody

/-- The high-priority keyword patterns of the `LIKE ANY` check, without their
surrounding `%` wildcards (the `LIKE '%kw%'` test is substring containment). -/
def highPriorityKeywords : List (List Char) :=
  ["compliance requirement".data, "mandatory".data, "deadline".data,
   "violation".data, "penalty".data, "fine".data, "immediate effect".data,
   "critical".data, "urgent".data]

/-- SQL `lower`, character by character. -/
def lowerStr (s : List Char) : List Char := s.map Char.toLower

/-- jsonb `?` operator restricted to text values: key presence. -/
def jsonbHasKey (m : List (List Char × List Char)) (key : List Char) : Bool :=
  m.any (fun kv => kv.1 == key)

/-- jsonb `->>` operator restricted to text values: value of a key. -/
def jsonbGetText (m : List (List Char × List Char)) (key : List Char) :
    Option (List Char) :=
  (m.find? (fun kv => kv.1 == key)).map (fun kv => kv.2)

/-- The branch logic of `analyze_alert_priority` as intended — the body with
its two `CASE` statements repaired to well-formed PL/pgSQL: an initial
priority from the update type (`Rule Change`/`Enforcement Action` → High,
`Guidance`/`Advisory` → Medium, otherwise Low), raised to High when the
lowercased content contains a high-priority keyword, finally overridden by
`lower(metadata->>'priority')` when the metadata has a `priority` key — that
last `CASE` statement has no `ELSE`, so an unrecognized metadata value raises
`CASE_NOT_FOUND`.  The jsonb metadata is modelled as an association list of
text keys and values. -/
def analyze_alert_priority_intended (update_type : RegulatoryUpdateType)
    (content : List Char) (metadata : List (List Char × List Char)) :
    Except PgError AlertPriority :=
  let content_lower := lowerStr content
  let p1 : AlertPriority :=
    match update_type with
    | .RuleChange => .High
    | .EnforcementAction => .High
    | .Guidance => .Medium
    | .Advisory => .Medium
    | _ => .Low
  let p2 : AlertPriority :=
    if highPriorityKeywords.any (fun kw => containsSub kw content_lower) then
      .High
    else p1
  if jsonbHasKey metadata "priority".data then
    match jsonbGetText metadata "priority".data with
    | none => .error .CaseNotFound
    | some v =>
      if lowerStr v == "high".data then .ok .High
      else if lowerStr v == "medium".data then .ok .Medium
      else if lowerStr v == "low".data then .ok .Low
      else .error .CaseNotFound
  else .ok p2

/-- Shallow embedding of `analyze_alert_priority` from
`20250315073851_navy_plain.sql`.  Both `CASE` statements in the body are not
valid PL/pgSQL: their branch assignments are not semicolon-terminated
(`THEN priority := 'High' WHEN ...`) and each construct closes with `END;`
instead of the required `END CASE;` (`END CASE` appears nowhere in the file).
The body therefore fails to parse — at `CREATE FUNCTION` under the default
`check_function_bodies = on`, or at first call otherwise — so no call ever
reaches the branch logic, embedded as `analyze_alert_priority_intended`. -/
def analyze_alert_priority (update_type : RegulatoryUpdateType)
    (content : List Char) (metadata : List (List Char × List Char)) :
    Except PgError AlertPriority :=
  (plpgsqlCaseStatementWellFormed false false).bind
    (fun _ => analyze_alert_priority_intended update_type content metadata)

/-- The priority named by a lowercased metadata label, when recognized. -/
def priorityOfLabel (s : List Char) : Option AlertPriority :=
  if s == "high".data then some .High
  else if s == "medium".data then some .Medium
  else if s == "low".data then some .Low
  else none

theorem jsonbHasKey_of_get (m : List (List Char × List Char))
    (key v : List Char) (h : jsonbGetText m key = some v) :
    jsonbHasKey m key = true := by
  unfold jsonbGetText at h
  unfold jsonbHasKey
  cases hf : m.find? (fun kv => kv.1 == key) with
  | none => rw [hf] at h; simp at h
  | some kv =>
    have := List.find?_some hf
    rw [List.any_eq_true]
    exact ⟨kv, List.mem_of_find?_eq_some hf, this⟩

/-- In the repaired branch logic, a recognized lowercased metadata priority
value overrides both the update-type priority and any keyword match, because
the metadata check is applied last — this is the claim's intent, which the
function as written never executes. -/
theorem analyze_alert_priority_intended_metadata_override
    (update_type : RegulatoryUpdateType) (content : List Char)
    (metadata : List (List Char × List Char)) (v : List Char) (p : AlertPriority)
    (hget : jsonbGetText metadata "priority".data = some v)
    (hp : priorityOfLabel (lowerStr v) = some p) :
    analyze_alert_priority_intended update_type content metadata = .ok p := by
  unfold analyze_alert_priority_intended
  rw [if_pos (jsonbHasKey_of_get metadata _ v hget), hget]
  dsimp only
  unfold priorityOfLabel at hp
  by_cases h1 : (lowerStr v == "high".data) = true
  · rw [if_pos h1] at hp ⊢
    cases hp; rfl
  · rw [if_neg h1] at hp ⊢
    by_cases h2 : (lowerStr v == "medium".data) = true
    · rw [if_pos h2] at hp ⊢
      cases hp; rfl
    · rw [if_neg h2] at hp ⊢
      by_cases h3 : (lowerStr v == "low".data) = true
      · rw [if_pos h3] at hp ⊢
        cases hp; rfl
      · rw [if_neg h3] at hp
        simp at hp

/-- C10: code bug — the two `CASE` statements in `analyze_alert_priority` are
not valid PL/pgSQL (branch assignments without terminating semicolons, `END;`
instead of `END CASE;`), so the body never parses and the function never
returns a priority.  At the claim's own override scenario — a `Rule Change`
(High by type) whose content matches the `urgent` and `mandatory` keywords
(High by content) but whose metadata says `priority = "Low"` — the call fails
with the body error, while the repaired branch logic returns exactly the
metadata priority Low as the claim intends. -/
theorem analyze_alert_priority_body_never_parses :
    analyze_alert_priority RegulatoryUpdateType.RuleChange
        "Urgent: mandatory deadline with penalty".data
        [("priority".data, "Low".data)] = .error PgError.InvalidBody ∧
    analyze_alert_priority_intended RegulatoryUpdateType.RuleChange
        "Urgent: mandatory deadline with penalty".data
        [("priority".data, "Low".data)] = .ok AlertPriority.Low :=
  ⟨rfl, rfl⟩

end RegulateAI
